import Mathlib

/-!
Verification of the departure-normalization pipeline of the Berlin
Transport Dashboard (`src/app.py`).

The embedding models the loosely-structured JSON values the app receives
as the inductive `JVal`, Python `dict.get`/truthiness/`int()` as explicit
functions, `pandas.to_datetime` on the ISO-8601 timestamp subset the data
uses as `pdToDatetime`, and the three processing functions
`process_departures`, `search_station`, `get_departures` as Lean
functions over those values.  A record whose processing would raise an
uncaught Python exception is mapped to `none`.
-/

/-- A JSON-like Python value: `null` is Python `None`.  Numbers are
modelled as integers (the API's delay values and epoch values are whole
numbers; sub-second precision is not modelled). -/
inductive JVal where
  | null
  | bool (b : Bool)
  | num (n : Int)
  | str (s : String)
  | arr (xs : List JVal)
  | obj (fields : List (String × JVal))
  deriving Repr

-- `deriving DecidableEq` has no handler for this nested inductive, so
-- structural equality is a mutual recursion over the two list positions.
mutual

def JVal.beq : JVal → JVal → Bool
  | .null, .null => true
  | .bool a, .bool b => a == b
  | .num a, .num b => a == b
  | .str a, .str b => a == b
  | .arr a, .arr b => JVal.beqArr a b
  | .obj a, .obj b => JVal.beqFlds a b
  | _, _ => false

def JVal.beqArr : List JVal → List JVal → Bool
  | [], [] => true
  | x :: xs, y :: ys => JVal.beq x y && JVal.beqArr xs ys
  | _, _ => false

def JVal.beqFlds : List (String × JVal) → List (String × JVal) → Bool
  | [], [] => true
  | (k, v) :: xs, (l, w) :: ys => k == l && JVal.beq v w && JVal.beqFlds xs ys
  | _, _ => false

end

mutual

theorem JVal.beq_iff : ∀ a b : JVal, JVal.beq a b = true ↔ a = b
  | .null, .null => by simp [JVal.beq]
  | .bool _, .bool _ => by simp [JVal.beq]
  | .num _, .num _ => by simp [JVal.beq]
  | .str _, .str _ => by simp [JVal.beq]
  | .arr x, .arr y => by simp [JVal.beq, JVal.beqArr_iff x y]
  | .obj x, .obj y => by simp [JVal.beq, JVal.beqFlds_iff x y]
  | .null, .bool _ | .null, .num _ | .null, .str _ | .null, .arr _ | .null, .obj _
  | .bool _, .null | .bool _, .num _ | .bool _, .str _ | .bool _, .arr _ | .bool _, .obj _
  | .num _, .null | .num _, .bool _ | .num _, .str _ | .num _, .arr _ | .num _, .obj _
  | .str _, .null | .str _, .bool _ | .str _, .num _ | .str _, .arr _ | .str _, .obj _
  | .arr _, .null | .arr _, .bool _ | .arr _, .num _ | .arr _, .str _ | .arr _, .obj _
  | .obj _, .null | .obj _, .bool _ | .obj _, .num _ | .obj _, .str _ | .obj _, .arr _ => by
    simp [JVal.beq]

theorem JVal.beqArr_iff : ∀ xs ys : List JVal, JVal.beqArr xs ys = true ↔ xs = ys
  | [], [] => by simp [JVal.beqArr]
  | x :: xs, y :: ys => by simp [JVal.beqArr, JVal.beq_iff x y, JVal.beqArr_iff xs ys]
  | [], _ :: _ => by simp [JVal.beqArr]
  | _ :: _, [] => by simp [JVal.beqArr]

theorem JVal.beqFlds_iff : ∀ xs ys : List (String × JVal), JVal.beqFlds xs ys = true ↔ xs = ys
  | [], [] => by simp [JVal.beqFlds]
  | (k, v) :: xs, (l, w) :: ys => by
    simp [JVal.beqFlds, JVal.beq_iff v w, JVal.beqFlds_iff xs ys, and_assoc]
  | [], _ :: _ => by simp [JVal.beqFlds]
  | _ :: _, [] => by simp [JVal.beqFlds]

end

instance : DecidableEq JVal := fun a b => decidable_of_iff _ (JVal.beq_iff a b)

/-- First binding of key `k` in a Python dict modelled as an association
list (the app's records come from JSON objects, whose keys are unique). -/
def lookupKey (fields : List (String × JVal)) (k : String) : Option JVal :=
  match fields with
  | [] => none
  | (l, v) :: rest => if l = k then some v else lookupKey rest k

/-- Python `d.get(k, dflt)`: the stored value — even `None` — when the key
is present, the default otherwise. -/
def pyGet (fields : List (String × JVal)) (k : String) (dflt : JVal) : JVal :=
  (lookupKey fields k).getD dflt

/-- Python `k in d`. -/
def hasKey (fields : List (String × JVal)) (k : String) : Bool :=
  (lookupKey fields k).isSome

/-- Python truthiness of a JSON value. -/
def pyTruthy : JVal → Bool
  | .null => false
  | .bool b => b
  | .num n => n != 0
  | .str s => s != ""
  | .arr xs => !xs.isEmpty
  | .obj fs => !fs.isEmpty

def digitVal? (c : Char) : Option Nat :=
  if 48 ≤ c.toNat ∧ c.toNat ≤ 57 then some (c.toNat - 48) else none

def digitsVal : List Char → Option Nat
  | [] => none
  | [c] => digitVal? c
  | c :: rest => match digitVal? c, digitsVal rest with
    | some d, some n => some (d * 10 ^ rest.length + n)
    | _, _ => none

/-- Python `int(s)` on a string: an optional sign followed by digits
(surrounding whitespace and `_` separators are not modelled; the app's
inputs do not use them).  `none` is `ValueError`. -/
def pyIntOfStr (s : String) : Option Int :=
  match s.data with
  | '-' :: ds => (digitsVal ds).map (fun n => -(n : Int))
  | '+' :: ds => (digitsVal ds).map (fun n => (n : Int))
  | ds => (digitsVal ds).map (fun n => (n : Int))

/-- Python `int(x)` on a JSON value; `none` is `ValueError`/`TypeError`
(both are caught by the app's delay conversion). -/
def pyInt : JVal → Option Int
  | .num n => some n
  | .str s => pyIntOfStr s
  | .bool b => some (if b then 1 else 0)
  | _ => none

/-- A `pandas.Timestamp` at second precision: the absolute instant (for
differences; naive timestamps use their wall clock as if UTC, which is
consistent because mixing naive and aware timestamps in a difference is
an error), the wall-clock hour/minute (what `strftime` formats), and
whether the timestamp is timezone-aware. -/
structure PDTimestamp where
  epochSec : Int
  wallHour : Nat
  wallMin : Nat
  aware : Bool
  deriving Repr, DecidableEq

def isLeap (y : Nat) : Bool :=
  (y % 4 == 0 && y % 100 != 0) || (y % 400 == 0)

def daysInMonth (y m : Nat) : Nat :=
  if m = 2 then (if isLeap y then 29 else 28)
  else if m = 4 ∨ m = 6 ∨ m = 9 ∨ m = 11 then 30
  else 31

/-- Days from 1970-01-01 to the civil date `y-m-d` (Hinnant's
`days_from_civil`, restricted to the positive years JSON dates use). -/
def daysFromCivil (y m d : Nat) : Int :=
  let y' : Int := if m ≤ 2 then (y : Int) - 1 else (y : Int)
  let era : Int := Int.fdiv y' 400
  let yoe : Int := y' - era * 400
  let mp : Int := if m > 2 then (m : Int) - 3 else (m : Int) + 9
  let doy : Int := Int.fdiv (153 * mp + 2) 5 + (d : Int) - 1
  let doe : Int := yoe * 365 + Int.fdiv yoe 4 - Int.fdiv yoe 100 + doy
  era * 146097 + doe - 719468

def parseDigits : (n : Nat) → List Char → Option (Nat × List Char)
  | 0, cs => some (0, cs)
  | n + 1, c :: cs =>
      match digitVal? c with
      | some d => (parseDigits n cs).map (fun p => (d * 10 ^ n + p.1, p.2))
      | none => none
  | _ + 1, [] => none

def expectChar (c : Char) : List Char → Option (List Char)
  | d :: cs => if d = c then some cs else none
  | [] => none

def parseOffsetHM (cs : List Char) : Option Int := do
  let (oh, cs) ← parseDigits 2 cs
  let cs ← expectChar ':' cs
  let (om, cs) ← parseDigits 2 cs
  if cs = [] ∧ oh ≤ 23 ∧ om ≤ 59 then some ((oh : Int) * 3600 + (om : Int) * 60) else none

/-- The trailing timezone designator of an ISO-8601 string: `none` is a
parse failure, `some none` a naive timestamp, `some (some o)` an aware
one with offset `o` seconds east of UTC. -/
def parseOffset : List Char → Option (Option Int)
  | [] => some none
  | ['Z'] => some (some 0)
  | '+' :: cs => (parseOffsetHM cs).map (fun o => some o)
  | '-' :: cs => (parseOffsetHM cs).map (fun o => some (-o))
  | _ => none

/-- The ISO-8601 subset of `pandas.to_datetime` string parsing that the
transit API's timestamps use: `YYYY-MM-DDTHH:MM:SS` with an optional
`Z`/`+HH:MM`/`-HH:MM` offset (`pandas` accepts further formats and
sub-second digits; those never occur here).  `none` is a parse error,
which `process_departures` does not catch per field — it aborts the
record. -/
def parseISO (s : String) : Option PDTimestamp := do
  let cs := s.data
  let (y, cs) ← parseDigits 4 cs
  let cs ← expectChar '-' cs
  let (mo, cs) ← parseDigits 2 cs
  let cs ← expectChar '-' cs
  let (d, cs) ← parseDigits 2 cs
  let cs ← expectChar 'T' cs
  let (h, cs) ← parseDigits 2 cs
  let cs ← expectChar ':' cs
  let (mi, cs) ← parseDigits 2 cs
  let cs ← expectChar ':' cs
  let (sec, cs) ← parseDigits 2 cs
  let off ← parseOffset cs
  if 1 ≤ mo ∧ mo ≤ 12 ∧ 1 ≤ d ∧ d ≤ daysInMonth y mo ∧ h ≤ 23 ∧ mi ≤ 59 ∧ sec ≤ 59 then
    some { epochSec := daysFromCivil y mo d * 86400 + (h : Int) * 3600 + (mi : Int) * 60
                         + (sec : Int) - off.getD 0
           wallHour := h
           wallMin := mi
           aware := off.isSome }
  else none

/-- `pandas.to_datetime` on an integer: nanoseconds since the epoch,
giving a naive timestamp (sub-second part truncated in this model). -/
def tsOfEpochNanos (n : Int) : PDTimestamp :=
  let sec := Int.fdiv n 1000000000
  let sod := Int.emod sec 86400
  { epochSec := sec
    wallHour := (Int.fdiv sod 3600).toNat
    wallMin := (Int.emod (Int.fdiv sod 60) 60).toNat
    aware := false }

/-- `pandas.to_datetime` on the JSON value found in a timestamp field;
`none` is a raised exception (unparsable string, or a non-convertible
type such as a bool, list or dict). -/
def pdToDatetime : JVal → Option PDTimestamp
  | .str s => parseISO s
  | .num n => some (tsOfEpochNanos n)
  | _ => none

def pad2 (n : Nat) : String :=
  if n < 10 then "0" ++ toString n else toString n

/-- `dt.strftime("%H:%M") if dt else "N/A"` — the wall clock of the
parsed timestamp. -/
def fmtHM : Option PDTimestamp → String
  | some t => pad2 t.wallHour ++ ":" ++ pad2 t.wallMin
  | none => "N/A"

/-- Python `round(s / 60)` for an integer number of seconds `s`: nearest
integer, halves to even (Python 3 banker's rounding; the float quotient
is exact in the half case, so no double-rounding arises). -/
def pyRoundDiv60 (s : Int) : Int :=
  let q := Int.fdiv s 60
  let r := s - 60 * q
  if 2 * r < 60 then q
  else if 60 < 2 * r then q + 1
  else if q % 2 = 0 then q else q + 1

/-- A row of the canonical departures table (`processed_data.append`
fields in `process_departures`).  `line`, `direction` and `platform`
hold whatever value the resolver produced — the code does not coerce
them to strings. -/
structure Row where
  line : JVal
  direction : JVal
  scheduled : String
  expected : String
  delayMin : Int
  platform : JVal
  deriving Repr, DecidableEq

/-- `line_info = dep.get('line', {})`. -/
def depLineInfo (fields : List (String × JVal)) : JVal :=
  pyGet fields "line" (.obj [])

/-- `line_name = line_info.get('name', line_info.get('productName', 'N/A'))`. -/
def lineNameOf (lineFields : List (String × JVal)) : JVal :=
  pyGet lineFields "name" (pyGet lineFields "productName" (.str "N/A"))

/-- `direction = dep.get('direction', dep.get('destination', 'N/A'))`. -/
def depDirection (fields : List (String × JVal)) : JVal :=
  pyGet fields "direction" (pyGet fields "destination" (.str "N/A"))

/-- `scheduled_time_str = dep.get('plannedWhen', dep.get('scheduledTime'))`. -/
def depScheduledStr (fields : List (String × JVal)) : JVal :=
  pyGet fields "plannedWhen" (pyGet fields "scheduledTime" .null)

/-- `expected_time_str = dep.get('when', dep.get('actualTime', scheduled_time_str))`. -/
def depExpectedStr (fields : List (String × JVal)) : JVal :=
  pyGet fields "when" (pyGet fields "actualTime" (depScheduledStr fields))

/-- `delay_seconds = dep.get('delay')` — `None` both when the key is
absent and when it holds JSON null. -/
def depDelayField (fields : List (String × JVal)) : JVal :=
  pyGet fields "delay" .null

/-- `platform = dep.get('platform', dep.get('plannedPlatform', 'N/A'))`. -/
def depPlatform (fields : List (String × JVal)) : JVal :=
  pyGet fields "platform" (pyGet fields "plannedPlatform" (.str "N/A"))

/-- `scheduled_dt = pd.to_datetime(scheduled_time_str) if scheduled_time_str else None`;
the outer `none` is a raised parse exception, which skips the record. -/
def depScheduledDt (fields : List (String × JVal)) : Option (Option PDTimestamp) :=
  if pyTruthy (depScheduledStr fields)
  then (pdToDatetime (depScheduledStr fields)).map some
  else some none

/-- `expected_dt = pd.to_datetime(expected_time_str) if expected_time_str else scheduled_dt`. -/
def depExpectedDt (fields : List (String × JVal)) (sdt : Option PDTimestamp) :
    Option (Option PDTimestamp) :=
  if pyTruthy (depExpectedStr fields)
  then (pdToDatetime (depExpectedStr fields)).map some
  else some sdt

/-- The `delay_minutes` computation before the clamp (`app.py` lines
127-137).  The outer `none` is the `TypeError` raised when a naive and
an aware timestamp are subtracted (uncaught, so the record is skipped);
`some none` is `delay_minutes = None`. -/
def rawDelayMinutes (delaySeconds : JVal) (sdt edt : Option PDTimestamp) :
    Option (Option Int) :=
  if delaySeconds ≠ .null then
    some (some (match pyInt delaySeconds with
                | some n => Int.fdiv n 60
                | none => 0))
  else
    match sdt, edt with
    | some s, some e =>
        if s.aware = e.aware then some (some (pyRoundDiv60 (e.epochSec - s.epochSec)))
        else none
    | _, _ => some none

/-- The clamp to zero plus the `int(delay_minutes) if delay_minutes is
not None else 0` default (`app.py` lines 139-150). -/
def clampDelay : Option Int → Int
  | some d => if d < 0 then 0 else d
  | none => 0

/-- One iteration of the `for dep in departures_json` loop on a dict
record; `none` means the record raised and was skipped with a warning. -/
def processFields (fields : List (String × JVal)) : Option Row :=
  (match depLineInfo fields with
   | .obj lf => some lf
   | _ => none).bind fun lineFields =>
  (depScheduledDt fields).bind fun sdt =>
  (depExpectedDt fields sdt).bind fun edt =>
  (rawDelayMinutes (depDelayField fields) sdt edt).map fun dm =>
  { line := lineNameOf lineFields
    direction := depDirection fields
    scheduled := fmtHM sdt
    expected := fmtHM edt
    delayMin := clampDelay dm
    platform := depPlatform fields }

/-- One iteration of the loop on an arbitrary JSON value: a non-dict
record raises `AttributeError` at `dep.get` and is skipped. -/
def processOne : JVal → Option Row
  | .obj fields => processFields fields
  | _ => none

/-- The unsorted canonical rows: records are processed independently and
failures are dropped.  (`pd.to_numeric(...).fillna(0).astype(int)` on
the delay column is the identity here — the column already holds
integers.) -/
def rowsOf (deps : List JVal) : List Row :=
  deps.filterMap processOne

/-- Number of `st.warning` diagnostics emitted by the processing loop:
one per skipped record. -/
def diagCount (deps : List JVal) : Nat :=
  (deps.filter (fun d => (processOne d).isNone)).length

/-- One or two leading digits of a `strptime` numeric directive. -/
def parse12 : List Char → Option (Nat × List Char)
  | [] => none
  | [c] => (digitVal? c).map (fun d => (d, []))
  | a :: b :: rest =>
      match digitVal? a, digitVal? b with
      | some x, some y => some (10 * x + y, rest)
      | some x, none => some (x, b :: rest)
      | none, _ => none

/-- `datetime.strptime(f"{today} {x}", "%Y-%m-%d %H:%M")` restricted to
the varying part `x`: the date prefix is the same fixed valid date for
every row, so reconstruction fails exactly when `x` does not match
`%H:%M`, and comparing the reconstructed same-day timestamps is
comparing these minute-of-day keys. -/
def parseHM (s : String) : Option Nat := do
  let (h, rest) ← parse12 s.data
  let rest ← expectChar ':' rest
  let (m, rest) ← parse12 rest
  if rest = [] ∧ h ≤ 23 ∧ m ≤ 59 then some (60 * h + m) else none

/-- The `sort_time` column entry for a row: `none` is a raised
`strptime` exception (which sends the whole sort to the fallback path),
`some none` is `pd.NaT` for an `"N/A"` expected time. -/
def expectedKey (r : Row) : Option (Option Nat) :=
  if r.expected = "N/A" then some none
  else (parseHM r.expected).map some

def rowKeyOK (r : Row) : Bool := (expectedKey r).isSome

def timeKey (r : Row) : Option Nat := (expectedKey r).join

/-- Order on `sort_time` values with `NaT` (`none`) last
(`na_position='last'`). -/
def natOptLEb : Option Nat → Option Nat → Bool
  | _, none => true
  | none, some _ => false
  | some x, some y => x ≤ y

def primaryLE (a b : Row) : Prop := natOptLEb (timeKey a) (timeKey b) = true

instance : DecidableRel primaryLE := fun a b => by unfold primaryLE; infer_instance

/-- Python string `<`: lexicographic by code point. -/
def charsLt : List Char → List Char → Bool
  | _, [] => false
  | [], _ :: _ => true
  | a :: as, b :: bs => a.toNat < b.toNat || (a.toNat == b.toNat && charsLt as bs)

/-- Python string `<=`: lexicographic by code point. -/
def charsLe : List Char → List Char → Bool
  | [], _ => true
  | _ :: _, [] => false
  | a :: as, b :: bs => a.toNat < b.toNat || (a.toNat == b.toNat && charsLe as bs)

/-- The fallback comparison `sort_values(by=['Expected', 'Scheduled'])`:
lexicographic on the string pair. -/
def rowLexLE (a b : Row) : Prop :=
  charsLt a.expected.data b.expected.data = true ∨
    (a.expected = b.expected ∧ charsLe a.scheduled.data b.scheduled.data = true)

instance : DecidableRel rowLexLE := fun a b => by unfold rowLexLE; infer_instance

/-- The sort step of `process_departures` (`app.py` lines 166-178): sort
by the reconstructed same-day expected timestamp with `NaT` last, unless
building the `sort_time` column raises for some row, in which case sort
lexicographically by the `(Expected, Scheduled)` strings.  A caveat: a
deterministic model must pick some order for rows with equal sort keys
and this one keeps input order, whereas `df.sort_values` with its
default `kind='quicksort'` leaves the tie order unspecified — so no
theorem below asserts anything about the relative order of tied rows,
only permutation, sortedness and placement facts that hold for any
correct (even unstable) sort. -/
def sortRows (rows : List Row) : List Row :=
  if rows.all rowKeyOK then List.insertionSort primaryLE rows
  else List.insertionSort rowLexLE rows

/-- `process_departures`: normalize each record, drop the ones that
raise, sort. -/
def process_departures (deps : List JVal) : List Row :=
  sortRows (rowsOf deps)

/-- Arithmetic mean of a list of integers, as pandas computes
`mean()`: the exact rational sum-over-count (groups are never empty
where this is used). -/
def ratMean (xs : List Int) : ℚ :=
  mkRat xs.sum xs.length

/-- `sort_values(ascending=False)` order on the per-line means. -/
def meanDescLE (a b : JVal × ℚ) : Prop := b.2 ≤ a.2

instance : DecidableRel meanDescLE := fun a b => by unfold meanDescLE; infer_instance

instance : IsTotal (JVal × ℚ) meanDescLE := ⟨fun a b => le_total b.2 a.2⟩

instance : IsTrans (JVal × ℚ) meanDescLE := ⟨fun _ _ _ h1 h2 => le_trans h2 h1⟩

/-- The per-line average-delay view (`app.py` lines 307-310):
`df[df['Delay (Min)'] > 0].groupby('Line')['Delay (Min)'].mean()
.sort_values(ascending=False).head(15)`.  Group keys are taken in first
occurrence order (pandas sorts them ascending; that differs only in the
relative order of lines with equal mean delay), the descending sort is
modelled as stable. -/
def avg_delay (rows : List Row) : List (JVal × ℚ) :=
  let pos := rows.filter (fun r => 0 < r.delayMin)
  let keys := (pos.map Row.line).dedup
  let pairs := keys.map (fun k =>
    (k, ratMean ((pos.filter (fun r => r.line = k)).map Row.delayMin)))
  (List.insertionSort meanDescLE pairs).take 15

/-- The outcome of one HTTP request, as the two client functions see it:
a `requests.exceptions.RequestException` (network failure, timeout, or
the non-2xx raised by `raise_for_status`), a `json.JSONDecodeError`, or
a decoded JSON body. -/
inductive ApiResponse where
  | failure
  | badJson
  | ok (body : JVal)
  deriving Repr, DecidableEq

/-- Which user-facing diagnostic a client surfaced: the `st.error` of
the two except-branches, the distinct `st.warning` when no list is found
in the body, or none. -/
inductive Diag where
  | errorMsg
  | warnNotFound
  | noDiag
  deriving Repr, DecidableEq

def listPre : List Char → List Char → Bool
  | [], _ => true
  | _ :: _, [] => false
  | a :: as, b :: bs => a == b && listPre as bs

/-- Python `needle in hay` on strings: substring containment. -/
def strHasSub : List Char → List Char → Bool
  | needle, [] => listPre needle []
  | needle, c :: rest => listPre needle (c :: rest) || strHasSub needle rest

def findListKeys (keys : List String) (fields : List (String × JVal)) :
    Option (List JVal) :=
  match keys with
  | [] => none
  | k :: rest =>
      match lookupKey fields k with
      | some (.arr xs) => some xs
      | _ => findListKeys rest fields

/-- First binding of `keys` whose value is a list, as the probing loop
`for key in potential_keys: if key in data and isinstance(data[key], list)`
finds it.  Outer `none` is an uncaught `TypeError` (`key in data` on a
non-container, non-string body); `some none` means no list was found. -/
def findListIn (keys : List String) (body : JVal) : Option (Option (List JVal)) :=
  match body with
  | .arr xs => some (some xs)
  | .obj fields => some (findListKeys keys fields)
  | .str s =>
      if keys.any (fun k => strHasSub k.data s.data) then none else some none
  | _ => none

/-- The station filter predicate
`loc.get('type') == 'stop' or 'id' in loc` on a dict entry. -/
def keepStation : JVal → Bool
  | .obj f => pyGet f "type" .null = .str "stop" || hasKey f "id"
  | _ => false

/-- The list comprehension over `found_list`: `loc.get` raises
`AttributeError` on a non-dict entry, which nothing catches (`none`). -/
def filterStations : List JVal → Option (List JVal)
  | [] => some []
  | .obj f :: rest =>
      (filterStations rest).map (fun ys =>
        if keepStation (.obj f) then .obj f :: ys else ys)
  | _ :: _ => none

def searchKeys : List String := ["locations", "stopLocations", "station"]

def departureKeys : List String := ["departures", "journeys", "connections"]

/-- `search_station` after the request (the configured-API-key branch):
result list together with the surfaced diagnostic; `none` is an uncaught
exception escaping the function. -/
def search_station : ApiResponse → Option (List JVal × Diag)
  | .failure => some ([], .errorMsg)
  | .badJson => some ([], .errorMsg)
  | .ok body =>
      match findListIn searchKeys body with
      | none => none
      | some none => some ([], .warnNotFound)
      | some (some xs) => (filterStations xs).map (fun ys => (ys.take 5, .noDiag))

/-- `get_departures` after the request: the found list is returned
unfiltered, in source order. -/
def get_departures : ApiResponse → Option (List JVal × Diag)
  | .failure => some ([], .errorMsg)
  | .badJson => some ([], .errorMsg)
  | .ok body =>
      match findListIn departureKeys body with
      | none => none
      | some none => some ([], .warnNotFound)
      | some (some xs) => some (xs, .noDiag)

theorem natOptLEb_total (a b : Option Nat) :
    natOptLEb a b = true ∨ natOptLEb b a = true := by
  cases a <;> cases b <;> simp [natOptLEb] <;> omega

theorem natOptLEb_trans {a b c : Option Nat} (h1 : natOptLEb a b = true)
    (h2 : natOptLEb b c = true) : natOptLEb a c = true := by
  cases a <;> cases b <;> cases c <;> simp [natOptLEb] at * <;> omega

instance : IsTotal Row primaryLE := ⟨fun a b => natOptLEb_total _ _⟩

instance : IsTrans Row primaryLE := ⟨fun _ _ _ => natOptLEb_trans⟩

theorem charsLt_trans : ∀ (a b c : List Char),
    charsLt a b = true → charsLt b c = true → charsLt a c = true
  | _, b, [], _, h2 => by cases b <;> simp [charsLt] at h2
  | [], _, _ :: _, _, _ => by simp [charsLt]
  | _ :: _, [], _ :: _, h1, _ => by simp [charsLt] at h1
  | x :: xs, y :: ys, z :: zs, h1, h2 => by
      simp only [charsLt, Bool.or_eq_true, Bool.and_eq_true, beq_iff_eq,
        decide_eq_true_eq] at h1 h2 ⊢
      rcases h1 with h1 | ⟨e1, l1⟩
      · rcases h2 with h2 | ⟨e2, l2⟩
        · exact Or.inl (Nat.lt_trans h1 h2)
        · exact Or.inl (e2 ▸ h1)
      · rcases h2 with h2 | ⟨e2, l2⟩
        · exact Or.inl (e1 ▸ h2)
        · exact Or.inr ⟨e1.trans e2, charsLt_trans xs ys zs l1 l2⟩

theorem charsLe_trans : ∀ (a b c : List Char),
    charsLe a b = true → charsLe b c = true → charsLe a c = true
  | [], _, _, _, _ => by simp [charsLe]
  | _ :: _, [], _, h1, _ => by simp [charsLe] at h1
  | _ :: _, _ :: _, [], _, h2 => by simp [charsLe] at h2
  | x :: xs, y :: ys, z :: zs, h1, h2 => by
      simp only [charsLe, Bool.or_eq_true, Bool.and_eq_true, beq_iff_eq,
        decide_eq_true_eq] at h1 h2 ⊢
      rcases h1 with h1 | ⟨e1, l1⟩
      · rcases h2 with h2 | ⟨e2, l2⟩
        · exact Or.inl (Nat.lt_trans h1 h2)
        · exact Or.inl (e2 ▸ h1)
      · rcases h2 with h2 | ⟨e2, l2⟩
        · exact Or.inl (e1 ▸ h2)
        · exact Or.inr ⟨e1.trans e2, charsLe_trans xs ys zs l1 l2⟩

theorem charsLt_or_eq_or_gt : ∀ (a b : List Char),
    charsLt a b = true ∨ a = b ∨ charsLt b a = true
  | [], [] => Or.inr (Or.inl rfl)
  | [], _ :: _ => Or.inl (by simp [charsLt])
  | _ :: _, [] => Or.inr (Or.inr (by simp [charsLt]))
  | x :: xs, y :: ys => by
      rcases Nat.lt_trichotomy x.toNat y.toNat with h | h | h
      · exact Or.inl (by simp [charsLt, h])
      · have hxy : x = y := Char.eq_of_val_eq (UInt32.toNat.inj h)
        rcases charsLt_or_eq_or_gt xs ys with h' | h' | h'
        · exact Or.inl (by simp [charsLt, hxy, h'])
        · exact Or.inr (Or.inl (by rw [hxy, h']))
        · exact Or.inr (Or.inr (by simp [charsLt, hxy, h']))
      · exact Or.inr (Or.inr (by simp [charsLt, h]))

theorem charsLe_total : ∀ (a b : List Char),
    charsLe a b = true ∨ charsLe b a = true
  | [], _ => Or.inl (by simp [charsLe])
  | _ :: _, [] => Or.inr (by simp [charsLe])
  | x :: xs, y :: ys => by
      rcases Nat.lt_trichotomy x.toNat y.toNat with h | h | h
      · exact Or.inl (by simp [charsLe, h])
      · rcases charsLe_total xs ys with h' | h'
        · exact Or.inl (by simp [charsLe, h, h'])
        · exact Or.inr (by simp [charsLe, h.symm, h'])
      · exact Or.inr (by simp [charsLe, h])

instance : IsTotal Row rowLexLE := by
  constructor
  intro a b
  rcases charsLt_or_eq_or_gt a.expected.data b.expected.data with h | h | h
  · exact Or.inl (Or.inl h)
  · have he : a.expected = b.expected := String.ext h
    rcases charsLe_total a.scheduled.data b.scheduled.data with h' | h'
    · exact Or.inl (Or.inr ⟨he, h'⟩)
    · exact Or.inr (Or.inr ⟨he.symm, h'⟩)
  · exact Or.inr (Or.inl h)

instance : IsTrans Row rowLexLE := by
  constructor
  intro a b c h1 h2
  rcases h1 with h1 | ⟨e1, l1⟩
  · rcases h2 with h2 | ⟨e2, l2⟩
    · exact Or.inl (charsLt_trans _ _ _ h1 h2)
    · exact Or.inl (e2 ▸ h1)
  · rcases h2 with h2 | ⟨e2, l2⟩
    · exact Or.inl (e1 ▸ h2)
    · exact Or.inr ⟨e1.trans e2, charsLe_trans _ _ _ l1 l2⟩

theorem sortRows_perm (rows : List Row) : (sortRows rows).Perm rows := by
  unfold sortRows
  split
  · exact List.perm_insertionSort primaryLE rows
  · exact List.perm_insertionSort rowLexLE rows

/-- Successful processing of a dict record, unfolded: every stage
succeeded and the row is built from the resolved pieces. -/
theorem processFields_eq_some {fields : List (String × JVal)} {row : Row} :
    processFields fields = some row ↔
      ∃ lf sdt edt dm,
        depLineInfo fields = .obj lf ∧
        depScheduledDt fields = some sdt ∧
        depExpectedDt fields sdt = some edt ∧
        rawDelayMinutes (depDelayField fields) sdt edt = some dm ∧
        row = { line := lineNameOf lf, direction := depDirection fields,
                scheduled := fmtHM sdt, expected := fmtHM edt,
                delayMin := clampDelay dm, platform := depPlatform fields } := by
  cases hli : depLineInfo fields with
  | obj lf =>
      simp only [processFields, hli, Option.some_bind, Option.bind_eq_some,
        Option.map_eq_some']
      constructor
      · rintro ⟨sdt, hs, edt, he, dm, hdm, hrow⟩
        exact ⟨lf, sdt, edt, dm, rfl, hs, he, hdm, hrow.symm⟩
      · rintro ⟨lf', sdt, edt, dm, hlf, hs, he, hdm, hrow⟩
        obtain rfl : lf = lf' := by injection hlf
        exact ⟨sdt, hs, edt, he, dm, hdm, hrow.symm⟩
  | null => simp [processFields, hli]
  | bool b => simp [processFields, hli]
  | num n => simp [processFields, hli]
  | str s => simp [processFields, hli]
  | arr xs => simp [processFields, hli]

theorem clampDelay_nonneg : ∀ o : Option Int, 0 ≤ clampDelay o := by
  intro o
  cases o with
  | none => simp [clampDelay]
  | some d =>
      simp only [clampDelay]
      split
      · omega
      · omega

theorem processOne_delayMin_nonneg {d : JVal} {row : Row}
    (h : processOne d = some row) : 0 ≤ row.delayMin := by
  cases d <;> simp [processOne] at h
  case obj fields =>
    rcases processFields_eq_some.mp h with ⟨lf, sdt, edt, dm, _, _, _, _, hrow⟩
    rw [hrow]
    exact clampDelay_nonneg dm

theorem mem_process_departures {deps : List JVal} {row : Row}
    (h : row ∈ process_departures deps) : ∃ d ∈ deps, processOne d = some row := by
  unfold process_departures at h
  have hm := (sortRows_perm (rowsOf deps)).mem_iff.mp h
  simpa [rowsOf, List.mem_filterMap] using hm

/-- Claim C2: for every input list and every row of the table returned
by `process_departures`, the `Delay (Min)` field is a non-negative
integer, and it equals 0 when no delay could be determined from the raw
record (no usable delay field and no pair of parsed timestamps). -/
theorem c2_delay_nonneg_and_default :
    (∀ (deps : List JVal) (row : Row), row ∈ process_departures deps → 0 ≤ row.delayMin) ∧
    (∀ (fields : List (String × JVal)) (row : Row) (sdt edt : Option PDTimestamp),
      processOne (.obj fields) = some row →
      depDelayField fields = .null →
      depScheduledDt fields = some sdt →
      depExpectedDt fields sdt = some edt →
      (sdt = none ∨ edt = none) →
      row.delayMin = 0) := by
  constructor
  · intro deps row h
    rcases mem_process_departures h with ⟨d, _, hd⟩
    exact processOne_delayMin_nonneg hd
  · intro fields row sdt edt h hnull hs he hnd
    simp only [processOne] at h
    rcases processFields_eq_some.mp h with ⟨lf, sdt', edt', dm, _, hs', he', hdm, hrow⟩
    obtain rfl : sdt = sdt' := by rw [hs] at hs'; injection hs'
    obtain rfl : edt = edt' := by rw [he] at he'; injection he'
    rw [hnull] at hdm
    have hdm0 : dm = none := by
      unfold rawDelayMinutes at hdm
      rw [if_neg (by simp)] at hdm
      rcases hnd with rfl | rfl
      · cases edt <;> simpa using hdm.symm
      · cases sdt <;> simpa using hdm.symm
    rw [hrow, hdm0]
    rfl

def emptyRow : Row :=
  { line := .str "N/A", direction := .str "N/A", scheduled := "N/A",
    expected := "N/A", delayMin := 0, platform := .str "N/A" }

/-- Witness for C2 at a concrete input: the empty record normalizes to a
row with delay 0, which is non-negative. -/
theorem c2_witness : 0 ≤ emptyRow.delayMin ∧ emptyRow.delayMin = 0 :=
  ⟨c2_delay_nonneg_and_default.1 [JVal.obj []] emptyRow (by decide),
   c2_delay_nonneg_and_default.2 [] emptyRow none none (by decide) (by decide)
     (by decide) (by decide) (Or.inl rfl)⟩

theorem rawDelayMinutes_null_some_some (s e : PDTimestamp) :
    rawDelayMinutes .null (some s) (some e) =
      if s.aware = e.aware
      then some (some (pyRoundDiv60 (e.epochSec - s.epochSec)))
      else none := by
  unfold rawDelayMinutes
  rw [if_neg (by simp)]

theorem clampDelay_some (r : Int) : clampDelay (some r) = max r 0 := by
  simp only [clampDelay]
  split
  · omega
  · omega

/-- Claim C1 (amended): for a successfully processed record, a delay
field holding a non-null numeric value (non-negative number or numeric
string) gives `Delay (Min) = floor(delaySeconds / 60)`; a non-null
non-numeric delay gives 0; a delay field that is absent **or holds JSON
null** (Python's `dict.get` conflates the two) falls through to the
timestamp difference, rounded to whole minutes; and the result is always
clamped to a minimum of 0. -/
theorem c1_delay_computation (fields : List (String × JVal)) (row : Row)
    (h : processOne (.obj fields) = some row) :
    (∀ n : Int, depDelayField fields ≠ .null → pyInt (depDelayField fields) = some n →
        0 ≤ n → row.delayMin = Int.fdiv n 60) ∧
    (depDelayField fields ≠ .null → pyInt (depDelayField fields) = none →
        row.delayMin = 0) ∧
    (∀ s e : PDTimestamp, depDelayField fields = .null →
        depScheduledDt fields = some (some s) →
        depExpectedDt fields (some s) = some (some e) →
        row.delayMin = max (pyRoundDiv60 (e.epochSec - s.epochSec)) 0) ∧
    0 ≤ row.delayMin := by
  simp only [processOne] at h
  rcases processFields_eq_some.mp h with ⟨lf, sdt, edt, dm, hlf, hs, he, hdm, hrow⟩
  subst hrow
  refine ⟨?_, ?_, ?_, clampDelay_nonneg dm⟩
  · intro n hne hpy hn
    have hdm' : dm = some (Int.fdiv n 60) := by
      unfold rawDelayMinutes at hdm
      rw [if_pos hne, hpy] at hdm
      injection hdm with hdm
      exact hdm.symm
    show clampDelay dm = Int.fdiv n 60
    rw [hdm', clampDelay_some]
    have hnn : 0 ≤ Int.fdiv n 60 := Int.fdiv_nonneg hn (by norm_num)
    omega
  · intro hne hpy
    have hdm' : dm = some 0 := by
      unfold rawDelayMinutes at hdm
      rw [if_pos hne, hpy] at hdm
      injection hdm with hdm
      exact hdm.symm
    show clampDelay dm = 0
    rw [hdm']
    rfl
  · intro s e hnull hs' he'
    obtain rfl : sdt = some s := by rw [hs] at hs'; injection hs'
    obtain rfl : edt = some e := by rw [he] at he'; injection he'
    have hdm' : dm = some (pyRoundDiv60 (e.epochSec - s.epochSec)) := by
      rw [hnull, rawDelayMinutes_null_some_some] at hdm
      by_cases haw : s.aware = e.aware
      · rw [if_pos haw] at hdm
        injection hdm with hdm
        exact hdm.symm
      · rw [if_neg haw] at hdm
        cases hdm
    show clampDelay dm = max (pyRoundDiv60 (e.epochSec - s.epochSec)) 0
    rw [hdm', clampDelay_some]

def c1CexFields : List (String × JVal) :=
  [("delay", .null),
   ("plannedWhen", .str "2025-10-26T10:00:00+01:00"),
   ("when", .str "2025-10-26T10:07:00+01:00")]

/-- Counterexample to C1 as frozen: this record's delay field is present
and non-numeric (JSON null), so the claim requires `Delay (Min) = 0`,
but the code treats a null delay as absent and derives 7 minutes from
the timestamps. -/
theorem c1_counterexample :
    hasKey c1CexFields "delay" = true ∧
    pyInt (pyGet c1CexFields "delay" .null) = none ∧
    (processOne (.obj c1CexFields)).map Row.delayMin = some 7 :=
  ⟨by decide, by decide, by decide⟩

def c1WFields : List (String × JVal) := [("delay", .num 90)]

def c1WRow : Row :=
  { line := .str "N/A", direction := .str "N/A", scheduled := "N/A",
    expected := "N/A", delayMin := 1, platform := .str "N/A" }

/-- Witness for C1 at a concrete input: an explicit 90-second delay
floors to 1 minute. -/
theorem c1_witness : c1WRow.delayMin = Int.fdiv 90 60 :=
  (c1_delay_computation c1WFields c1WRow (by decide)).1 90 (by decide)
    (by decide) (by decide)

theorem rowsOf_length_add_diag (deps : List JVal) :
    (rowsOf deps).length + diagCount deps = deps.length := by
  induction deps with
  | nil => rfl
  | cons d rest ih =>
      unfold rowsOf diagCount at *
      cases h : processOne d <;>
        simp only [List.filterMap_cons, List.filter_cons, h, Option.isNone_none,
          Option.isNone_some, List.length_cons, ite_true, ite_false,
          Bool.false_eq_true, if_false, if_true] <;>
        omega

/-- The three-record scenario of C5: the middle record has a non-numeric
delay field and an unparsable scheduled time (`pd.to_datetime` raises on
it, so it is dropped with one warning). -/
def c5Input : List JVal :=
  [ .obj [("line", .obj [("name", .str "S1")]), ("direction", .str "Destination A"),
          ("when", .str "2025-10-26T10:15:00+01:00"),
          ("plannedWhen", .str "2025-10-26T10:15:00+01:00"), ("delay", .num 0)],
    .obj [("line", .obj [("name", .str "U2")]), ("delay", .str "soon"),
          ("plannedWhen", .str "not-a-date")],
    .obj [("line", .obj [("name", .str "U2")]), ("direction", .str "Destination B"),
          ("when", .str "2025-10-26T10:18:00+01:00"),
          ("plannedWhen", .str "2025-10-26T10:17:00+01:00"), ("delay", .num 60)] ]

/-- Claim C5: a record that raises is dropped with exactly one
diagnostic and the others are still processed — rows plus diagnostics
account for every input record, every successfully processed record's
row appears in the output, and on the concrete three-record scenario two
rows come back with exactly one diagnostic. -/
theorem c5_per_record_isolation :
    (∀ deps : List JVal, (process_departures deps).length + diagCount deps = deps.length) ∧
    (∀ (deps : List JVal) (d : JVal) (row : Row), d ∈ deps → processOne d = some row →
        row ∈ process_departures deps) ∧
    (process_departures c5Input).length = 2 ∧ diagCount c5Input = 1 := by
  refine ⟨?_, ?_, by decide, by decide⟩
  · intro deps
    unfold process_departures
    rw [(sortRows_perm (rowsOf deps)).length_eq]
    exact rowsOf_length_add_diag deps
  · intro deps d row hd h
    unfold process_departures
    rw [(sortRows_perm (rowsOf deps)).mem_iff]
    exact List.mem_filterMap.mpr ⟨d, hd, h⟩

def c5Row1 : Row :=
  { line := .str "S1", direction := .str "Destination A", scheduled := "10:15",
    expected := "10:15", delayMin := 0, platform := .str "N/A" }

/-- Witness for C5 at a concrete input: the first scenario record's row
is in the returned table. -/
theorem c5_witness : c5Row1 ∈ process_departures c5Input :=
  c5_per_record_isolation.2.1 c5Input
    (.obj [("line", .obj [("name", .str "S1")]), ("direction", .str "Destination A"),
           ("when", .str "2025-10-26T10:15:00+01:00"),
           ("plannedWhen", .str "2025-10-26T10:15:00+01:00"), ("delay", .num 0)])
    c5Row1 (by decide) (by decide)

/-- The two-sided reading of the `sort_time` lambda: a row maps to `NaT`
exactly when its expected string is `"N/A"`. -/
theorem expectedKey_some_none_iff {r : Row} :
    expectedKey r = some none ↔ r.expected = "N/A" := by
  unfold expectedKey
  by_cases h : r.expected = "N/A"
  · simp [h]
  · rw [if_neg h]
    cases hp : parseHM r.expected <;> simp [hp, h]

def c3WDeps : List JVal :=
  [ .obj [("when", .str "2025-10-26T10:18:00+01:00")],
    .obj [("when", .str "2025-10-26T10:15:00+01:00")],
    .obj [("direction", .str "no time")] ]

/-- Claim C3: `process_departures` returns exactly the normalized rows,
ordered ascending by the reconstructed same-day expected timestamp
(minute-of-day keys — the common date the code prepends cancels in every
comparison) with `"N/A"` rows placed after all parsable rows; and when
the reconstruction raises for some row, the rows are instead sorted
lexicographically by the `(Expected, Scheduled)` string pair. -/
theorem c3_sorting (deps : List JVal) :
    (process_departures deps).Perm (rowsOf deps) ∧
    ((rowsOf deps).all rowKeyOK = true →
      List.Sorted primaryLE (process_departures deps) ∧
      (process_departures deps).Pairwise
        (fun a b => a.expected = "N/A" → b.expected = "N/A")) ∧
    ((rowsOf deps).all rowKeyOK = false →
      List.Sorted rowLexLE (process_departures deps)) := by
  refine ⟨sortRows_perm _, ?_, ?_⟩
  · intro hall
    have h1 : process_departures deps = List.insertionSort primaryLE (rowsOf deps) := by
      unfold process_departures sortRows
      rw [if_pos hall]
    constructor
    · rw [h1]
      exact List.sorted_insertionSort primaryLE (rowsOf deps)
    · rw [h1]
      refine List.Pairwise.imp_of_mem ?_
        (List.sorted_insertionSort primaryLE (rowsOf deps))
      intro a b ha hb hle hNA
      have hkb : rowKeyOK b = true := by
        have hmb : b ∈ rowsOf deps := (List.mem_insertionSort primaryLE).mp hb
        exact List.all_eq_true.mp hall b hmb
      have hta : timeKey a = none := by
        unfold timeKey
        rw [expectedKey_some_none_iff.mpr hNA]
        rfl
      have htb : timeKey b = none := by
        unfold primaryLE at hle
        rw [hta] at hle
        cases h : timeKey b with
        | none => rfl
        | some m =>
            rw [h] at hle
            simp [natOptLEb] at hle
      by_cases hbe : b.expected = "N/A"
      · exact hbe
      · exfalso
        unfold rowKeyOK expectedKey at hkb
        rw [if_neg hbe] at hkb
        unfold timeKey expectedKey at htb
        rw [if_neg hbe] at htb
        cases hp : parseHM b.expected with
        | none => rw [hp] at hkb; simp at hkb
        | some m => rw [hp] at htb; simp at htb
  · intro hfall
    have h1 : process_departures deps = List.insertionSort rowLexLE (rowsOf deps) := by
      unfold process_departures sortRows
      rw [if_neg (by rw [hfall]; exact Bool.false_ne_true)]
    rw [h1]
    exact List.sorted_insertionSort rowLexLE (rowsOf deps)

/-- Witness for C3 at a concrete input: three normalized rows (10:18,
10:15 and an `"N/A"`), all with reconstructible keys, come back sorted
with the `"N/A"` row last. -/
theorem c3_witness :
    List.Sorted primaryLE (process_departures c3WDeps) ∧
    (process_departures c3WDeps).Pairwise
      (fun a b => a.expected = "N/A" → b.expected = "N/A") :=
  (c3_sorting c3WDeps).2.1 (by decide)

theorem digitVal?_isSome {c : Char} (h : (digitVal? c).isSome = true) :
    48 ≤ c.toNat ∧ c.toNat ≤ 57 := by
  unfold digitVal? at h
  by_cases hb : 48 ≤ c.toNat ∧ c.toNat ≤ 57
  · exact hb
  · rw [if_neg hb] at h
    simp at h

/-- A string accepted by the `%H:%M` parse starts with a decimal digit. -/
theorem parseHM_some_head {s : String} {m : Nat} (h : parseHM s = some m) :
    ∃ c rest, s.data = c :: rest ∧ 48 ≤ c.toNat ∧ c.toNat ≤ 57 := by
  unfold parseHM at h
  cases hcs : s.data with
  | nil => rw [hcs] at h; simp [parse12] at h
  | cons c rest =>
      rw [hcs] at h
      refine ⟨c, rest, rfl, ?_⟩
      apply digitVal?_isSome
      cases hd : digitVal? c with
      | some d => simp [hd]
      | none =>
          exfalso
          have hp : parse12 (c :: rest) = none := by
            cases rest <;> simp [parse12, hd]
          rw [hp] at h
          simp at h

def c10Rows : List Row :=
  [ { line := .str "A", direction := .str "x", scheduled := "10:00",
      expected := "garbage", delayMin := 0, platform := .str "N/A" },
    { line := .str "B", direction := .str "x", scheduled := "10:05",
      expected := "N/A", delayMin := 0, platform := .str "N/A" },
    { line := .str "C", direction := .str "x", scheduled := "10:10",
      expected := "10:15", delayMin := 0, platform := .str "N/A" } ]

/-- Claim C10: on the fallback lexicographic path (taken only when some
row's expected string defeats the same-day reconstruction), a row whose
`Expected` is `"N/A"` still never precedes a row whose `Expected` is an
`HH:MM` digit string, because `'N'` compares greater than every ASCII
digit. -/
theorem c10_fallback_na_last (rows : List Row) (h : rows.all rowKeyOK = false) :
    (sortRows rows).Pairwise
      (fun a b => ¬ (a.expected = "N/A" ∧ (parseHM b.expected).isSome = true)) := by
  have h1 : sortRows rows = List.insertionSort rowLexLE rows := by
    unfold sortRows
    rw [if_neg (by rw [h]; exact Bool.false_ne_true)]
  rw [h1]
  refine List.Pairwise.imp ?_ (List.sorted_insertionSort rowLexLE rows)
  intro a b hle hcon
  obtain ⟨hNA, hHM⟩ := hcon
  obtain ⟨m, hm⟩ := Option.isSome_iff_exists.mp hHM
  obtain ⟨c, rest, hdata, hc48, hc57⟩ := parseHM_some_head hm
  rcases hle with hlt | ⟨heq, _⟩
  · rw [hNA, hdata] at hlt
    have hNdata : (("N/A" : String)).data = ['N', '/', 'A'] := rfl
    rw [hNdata] at hlt
    have hN : ('N' : Char).toNat = 78 := rfl
    simp only [charsLt, Bool.or_eq_true, Bool.and_eq_true, beq_iff_eq,
      decide_eq_true_eq, hN] at hlt
    rcases hlt with hlt | ⟨hlt, _⟩ <;> omega
  · rw [heq.symm.trans hNA] at hm
    have : parseHM "N/A" = none := rfl
    rw [this] at hm
    cases hm

/-- Witness for C10 at a concrete input: a table containing a
reconstruction-defeating row, an `"N/A"` row and a `10:15` row is
fallback-sorted with the `"N/A"` row after the `HH:MM` row. -/
theorem c10_witness :
    (sortRows c10Rows).Pairwise
      (fun a b => ¬ (a.expected = "N/A" ∧ (parseHM b.expected).isSome = true)) :=
  c10_fallback_na_last c10Rows (by decide)

def c4CexDeps : List JVal :=
  [ .obj [("line", .obj [("name", .str "A")]), ("delay", .num 300)],
    .obj [("line", .obj [("name", .str "B")]), ("delay", .num 300)] ]

/-- Claim C4 (amended): the average-delay view is built only from
canonical rows with positive delay, each entry carries the arithmetic
mean of `Delay (Min)` over its line's positive-delay rows, the entries
are sorted in non-increasing (descending, ties allowed) order of mean
delay, at most 15 are kept, and a line whose rows all have delay 0 does
not appear at all. -/
theorem c4_avg_delay_view (deps : List JVal) :
    (avg_delay (process_departures deps)).length ≤ 15 ∧
    (avg_delay (process_departures deps)).Pairwise meanDescLE ∧
    (∀ p ∈ avg_delay (process_departures deps),
      ∃ r ∈ process_departures deps, r.line = p.1 ∧ 0 < r.delayMin) ∧
    (∀ p ∈ avg_delay (process_departures deps),
      p.2 = ratMean ((((process_departures deps).filter
        (fun r => 0 < r.delayMin)).filter
          (fun r => r.line = p.1)).map Row.delayMin)) := by
  refine ⟨?_, ?_, ?_, ?_⟩
  · simp only [avg_delay]
    rw [List.length_take]
    exact Nat.min_le_left _ _
  · simp only [avg_delay]
    exact (List.sorted_insertionSort meanDescLE _).sublist (List.take_sublist _ _)
  · intro p hp
    simp only [avg_delay] at hp
    have hp2 := (List.take_sublist _ _).subset hp
    have hp3 := (List.mem_insertionSort meanDescLE).mp hp2
    obtain ⟨k, hk, hkp⟩ := List.mem_map.mp hp3
    have hk2 : k ∈ ((process_departures deps).filter
        (fun r => 0 < r.delayMin)).map Row.line := List.mem_dedup.mp hk
    obtain ⟨r, hr, hrk⟩ := List.mem_map.mp hk2
    have hr2 := List.mem_filter.mp hr
    refine ⟨r, hr2.1, ?_, by simpa using hr2.2⟩
    rw [hrk, ← hkp]
  · intro p hp
    simp only [avg_delay] at hp
    have hp2 := (List.take_sublist _ _).subset hp
    have hp3 := (List.mem_insertionSort meanDescLE).mp hp2
    obtain ⟨k, hk, hkp⟩ := List.mem_map.mp hp3
    subst hkp
    rfl

/-- Counterexample to C4 as frozen: two lines with one 300-second-delay
departure each have equal mean delay 5, so the view is not *strictly*
descending. -/
theorem c4_counterexample :
    ¬ (avg_delay (process_departures c4CexDeps)).Pairwise
        (fun a b : JVal × ℚ => b.2 < a.2) := by
  decide

/-- Witness for C4 at a concrete input: the two-line view respects the
cap, the non-increasing order, and every shown line has a positive-delay
row. -/
theorem c4_witness :
    (avg_delay (process_departures c4CexDeps)).length ≤ 15 ∧
    (avg_delay (process_departures c4CexDeps)).Pairwise meanDescLE ∧
    (∃ r ∈ process_departures c4CexDeps, r.line = (JVal.str "A", (5 : ℚ)).1 ∧
      0 < r.delayMin) :=
  ⟨(c4_avg_delay_view c4CexDeps).1, (c4_avg_delay_view c4CexDeps).2.1,
   (c4_avg_delay_view c4CexDeps).2.2.1 (JVal.str "A", (5 : ℚ)) (by decide)⟩

/-- Claim C6: for a network failure, a non-2xx status (raised by
`raise_for_status`) or a malformed JSON body, both clients return an
empty list and surface an error message; for a decoded body in which the
probing loop finds no list, both return an empty list with the distinct
list-not-found warning.  In all of these cases `some` means no exception
escapes the function. -/
theorem c6_client_error_degradation :
    search_station .failure = some ([], .errorMsg) ∧
    search_station .badJson = some ([], .errorMsg) ∧
    get_departures .failure = some ([], .errorMsg) ∧
    get_departures .badJson = some ([], .errorMsg) ∧
    (∀ body : JVal, findListIn searchKeys body = some none →
      search_station (.ok body) = some ([], .warnNotFound)) ∧
    (∀ body : JVal, findListIn departureKeys body = some none →
      get_departures (.ok body) = some ([], .warnNotFound)) ∧
    Diag.warnNotFound ≠ Diag.errorMsg := by
  refine ⟨rfl, rfl, rfl, rfl, ?_, ?_, by decide⟩
  · intro body h
    simp [search_station, h]
  · intro body h
    simp [get_departures, h]

/-- Witness for C6 at a concrete input: a body with no recognizable list
under any known key yields the empty list and the distinct warning from
both clients. -/
theorem c6_witness :
    search_station (.ok (.obj [])) = some ([], .warnNotFound) ∧
    get_departures (.ok (.obj [])) = some ([], .warnNotFound) :=
  ⟨c6_client_error_degradation.2.2.2.2.1 (.obj []) (by decide),
   c6_client_error_degradation.2.2.2.2.2.1 (.obj []) (by decide)⟩

def isObjB : JVal → Bool
  | .obj _ => true
  | _ => false

theorem filterStations_eq_filter : ∀ xs : List JVal, xs.all isObjB = true →
    filterStations xs = some (xs.filter keepStation) := by
  intro xs
  induction xs with
  | nil => intro h; rfl
  | cons x rest ih =>
      intro h
      rw [List.all_cons, Bool.and_eq_true] at h
      obtain ⟨hx, hrest⟩ := h
      cases x with
      | obj f =>
          unfold filterStations
          rw [ih hrest, List.filter_cons]
          rfl
      | null => simp [isObjB] at hx
      | bool b => simp [isObjB] at hx
      | num n => simp [isObjB] at hx
      | str s => simp [isObjB] at hx
      | arr a => simp [isObjB] at hx

/-- Does an entry consist of at most the two fields `id` and `name`? -/
def onlyIdName : JVal → Bool
  | .obj f => f.all (fun kv => kv.1 == "id" || kv.1 == "name")
  | _ => false

def c8CexLoc : JVal :=
  .obj [("id", .str "1"), ("name", .str "A"), ("extra", .str "x")]

def c8CexBody : JVal := .obj [("locations", .arr [c8CexLoc])]

def c8WList : List JVal :=
  [ .obj [("id", .str "900"), ("name", .str "A")],
    .obj [("type", .str "stop"), ("name", .str "B")],
    .obj [("type", .str "poi"), ("name", .str "C")] ]

/-- Claim C8 (amended): from the first list found in the body,
`search_station` keeps exactly the dict entries that carry an `id` key
or a `type` equal to `"stop"`, in source order without re-sorting,
truncated to at most 5 — but each kept candidate is returned **whole**,
not reduced to `{id, name}`. -/
theorem c8_search_filter (body : JVal) (xs : List JVal)
    (hfind : findListIn searchKeys body = some (some xs))
    (hobj : xs.all isObjB = true) :
    search_station (.ok body) = some ((xs.filter keepStation).take 5, .noDiag) ∧
    ((xs.filter keepStation).take 5).length ≤ 5 ∧
    ((xs.filter keepStation).take 5).Sublist xs := by
  refine ⟨?_, ?_, ?_⟩
  · simp [search_station, hfind, filterStations_eq_filter xs hobj]
  · rw [List.length_take]
    exact Nat.min_le_left _ _
  · exact (List.take_sublist _ _).trans (List.filter_sublist _)

/-- Counterexample to C8 as frozen: a matching station entry carrying an
extra field is returned unchanged — the candidate is not reduced to the
two fields `{id, name}`. -/
theorem c8_counterexample :
    search_station (.ok c8CexBody) = some ([c8CexLoc], .noDiag) ∧
    onlyIdName c8CexLoc = false :=
  ⟨by decide, by decide⟩

/-- Witness for C8 at a concrete input: of three entries, the two that
carry an `id` or a `"stop"` type marker survive, in order, whole. -/
theorem c8_witness :
    search_station (.ok (.obj [("locations", .arr c8WList)])) =
      some ((c8WList.filter keepStation).take 5, .noDiag) ∧
    ((c8WList.filter keepStation).take 5).length ≤ 5 ∧
    ((c8WList.filter keepStation).take 5).Sublist c8WList :=
  c8_search_filter (.obj [("locations", .arr c8WList)]) c8WList
    (by decide) (by decide)

def nonEmptyStrB : JVal → Bool
  | .str s => s != ""
  | _ => false

/-- Counterexample to C7 as frozen: a record whose `direction` key holds
JSON null is processed into a row whose `Direction` is null — the
resolver does not skip a present-but-null candidate, and the field is
not a non-empty string. -/
theorem c7_counterexample :
    (processOne (.obj [("direction", .null)])).map
      (fun r => nonEmptyStrB r.direction) = some false := by
  decide

/-- Claim C7 (amended): each attribute resolver returns the value of the
first *present* candidate key — even when that value is null — and the
`"N/A"` (or `{}` for `line`) default only when every candidate key is
absent; the expected-time string falls back to the scheduled string when
its own keys are absent, and the expected datetime falls back to the
resolved scheduled datetime whenever the expected string is falsy. -/
theorem c7_resolver (fields : List (String × JVal)) :
    (∀ (k : String) (d v : JVal), lookupKey fields k = some v → pyGet fields k d = v) ∧
    (∀ (k : String) (d : JVal), lookupKey fields k = none → pyGet fields k d = d) ∧
    (lookupKey fields "direction" = none → lookupKey fields "destination" = none →
      depDirection fields = .str "N/A") ∧
    (lookupKey fields "line" = none → depLineInfo fields = .obj []) ∧
    (lookupKey fields "platform" = none → lookupKey fields "plannedPlatform" = none →
      depPlatform fields = .str "N/A") ∧
    (lookupKey fields "when" = none → lookupKey fields "actualTime" = none →
      depExpectedStr fields = depScheduledStr fields) ∧
    (pyTruthy (depExpectedStr fields) = false →
      ∀ sdt : Option PDTimestamp, depExpectedDt fields sdt = some sdt) := by
  refine ⟨?_, ?_, ?_, ?_, ?_, ?_, ?_⟩
  · intro k d v h
    unfold pyGet
    rw [h]
    rfl
  · intro k d h
    unfold pyGet
    rw [h]
    rfl
  · intro h1 h2
    unfold depDirection pyGet
    rw [h1, h2]
    rfl
  · intro h
    unfold depLineInfo pyGet
    rw [h]
    rfl
  · intro h1 h2
    unfold depPlatform pyGet
    rw [h1, h2]
    rfl
  · intro h1 h2
    unfold depExpectedStr pyGet
    rw [h1, h2]
    rfl
  · intro h sdt
    unfold depExpectedDt
    rw [if_neg (by rw [h]; exact Bool.false_ne_true)]

/-- Witness for C7 at a concrete input: with every candidate key absent,
`direction` resolves to `"N/A"`. -/
theorem c7_witness : depDirection [] = .str "N/A" :=
  (c7_resolver []).2.2.1 rfl rfl

/-- Counterexample to C6 as frozen: the body `5` is valid JSON in which
no recognizable list is found under any known container key, but
instead of the list-not-found degradation the probing loop's
`key in data` raises an uncaught `TypeError` (`none`) in both clients. -/
theorem c6_counterexample :
    search_station (.ok (.num 5)) = none ∧
    get_departures (.ok (.num 5)) = none :=
  ⟨by decide, by decide⟩
